import Mathlib

/-!
# Verification of the `@fizzwiz/ensemble` core

Shallow embedding of the core classes of the repository:

* `Player` (lifecycle state, `let` property-mutation helper, `emit` bubbling) —
  `src/src/main/core/Player.js` and the `Event`-wrapping variant in
  `src/unnamed/part_004`;
* `Event` (emitter, type, args, source chain) — the `Event` class bundled with
  `src/src/main/core/Cue.js` / imported by `src/unnamed/part_004`;
* `Ensemble` (named, insertion-ordered collection with
  `add`/`remove`/`rotate`/`sort`) — `src/unnamed/part_003`;
* `Cue` (constructor checks, `play`/`pause` attach state, the `promise`
  wait-with-timeout primitive) — `src/src/main/core/Cue.js`;
* `Ostinato` (constructor check, `play`/`pause`) —
  `src/src/main/player/Ostinato.js`.

JavaScript values that matter to the claims are embedded explicitly: object
identity becomes a numeric id, `undefined` becomes `Option.none`, and the
`Map`'s insertion order becomes a `List` of key/value pairs.
-/

/-! ## Events and `Player.emit` (src/unnamed/part_004)

`Event` instances carry `emitter`, `type`, `args`, and an optional `source`
event.  In `Player.emit` the bubbled `Event` is passed as an ordinary
argument to the parent's `emit`, so argument lists can themselves contain
events; `JsVal` therefore folds the `Event` record and primitive argument
values into one inductive.  The JS `timestamp` field (`Date.now()`) is not
modelled: no claim mentions it and it does not influence any method.
-/

/-- A JavaScript value as far as `Player.emit` is concerned: either an opaque
primitive argument or an `Event` record `{emitter, type, args, source}`.
Emitters (players) are identified by numeric ids. -/
inductive JsVal where
  | prim (s : String)
  | event (emitter : Nat) (etype : String) (args : List JsVal) (source : Option JsVal)

/-- Length of the `source` chain of an event (`1` for an event whose `source`
is `undefined`); `0` for a non-event value. -/
def JsVal.chainLen : JsVal → Nat
  | .prim _ => 0
  | .event _ _ _ none => 1
  | .event _ _ _ (some s) => 1 + s.chainLen

/-- The `propagationPath` getter of `Event`: emitters from the origin of the
`source` chain to this event. -/
def JsVal.propPath : JsVal → List Nat
  | .prim _ => []
  | .event em _ _ none => [em]
  | .event em _ _ (some s) => s.propPath ++ [em]

/-- The `origin` getter of `Event`: `this.source?.origin ?? this`. -/
def JsVal.originOf : JsVal → JsVal
  | .prim s => .prim s
  | .event em t a none => .event em t a none
  | .event _ _ _ (some s) => s.originOf

mutual

/-- Largest `source`-chain length of any event reachable from this value,
descending both into `args` and into `source`. -/
def JsVal.deepMaxChain : JsVal → Nat
  | .prim _ => 0
  | .event em t args src =>
      max (JsVal.chainLen (.event em t args src))
        (max (deepMaxChainList args)
          (match src with
           | none => 0
           | some s => s.deepMaxChain))

/-- Largest `source`-chain length over a list of values. -/
def deepMaxChainList : List JsVal → Nat
  | [] => 0
  | v :: vs => max v.deepMaxChain (deepMaxChainList vs)

end

/-- `Player.emit` from `src/unnamed/part_004`, unrolled along the chain of
enclosing ensembles.  `emitAll self ancestors type args` returns, innermost
first, the pairs `(listener owner, delivered event)`: each node builds
`srcEvent = new Event(this, type, args)` and hands it to its own listeners
via `super.emit`, then, if it has an ensemble, builds
`bubbled = new Event(ensemble, type, [], srcEvent)` and calls
`ensemble.emit(type, bubbled)` — so the parent's `emit` runs with the bubbled
event as its single ordinary argument. -/
def emitAll (self : Nat) (ancestors : List Nat) (etype : String) (args : List JsVal) :
    List (Nat × JsVal) :=
  let srcEvent : JsVal := .event self etype args none
  (self, srcEvent) ::
    match ancestors with
    | [] => []
    | e :: rest => emitAll e rest etype [JsVal.event e etype [] (some srcEvent)]

/-! ## Players and Ensembles (src/src/main/core/Player.js, src/unnamed/part_003)

A *world* assigns to every numeric id the mutable fields of the `Player` it
denotes (`name`, `ensemble`, `playing`), and to every id that denotes an
`Ensemble` the insertion-ordered contents of its `players` `Map`.  JavaScript
`undefined` is `Option.none`; references to ensembles are ids, so `===` on
them is id equality. -/

/-- The mutable fields of one `Player` that the membership claims touch.
`pname`/`pens` are the `name`/`ensemble` back-pointers. -/
structure PlayerSt where
  pname : Option String
  pens : Option Nat
  playing : Bool
deriving Repr, DecidableEq

/-- `new Player(name)`: `playing = false`, `name` = the (optional)
constructor argument, `ensemble = undefined`. -/
def mkPlayer (name : Option String) : PlayerSt :=
  { pname := name, pens := none, playing := false }

/-- A value carried by a `propertychange` notification: the old/new value of
`name` (a string or `undefined`) or of `ensemble` (a reference or
`undefined`). -/
inductive PVal where
  | undef
  | str (s : String)
  | ensRef (e : Nat)
deriving Repr, DecidableEq

/-- One event emitted by `Player.let`: emitter id, property name, old value,
new value. -/
structure PCEvent where
  emitter : Nat
  prop : String
  oldV : PVal
  newV : PVal
deriving Repr, DecidableEq

/-- View an optional name as a `PVal`. -/
def pvName : Option String → PVal
  | none => .undef
  | some s => .str s

/-- View an optional ensemble reference as a `PVal`. -/
def pvEns : Option Nat → PVal
  | none => .undef
  | some e => .ensRef e

/-- Global state: per-id player fields and per-id ensemble contents. -/
structure World where
  player : Nat → PlayerSt
  entries : Nat → List (String × Nat)

/-- Pointwise function update (used for assignments in the world). -/
def updF {α : Type} (f : Nat → α) (k : Nat) (v : α) : Nat → α :=
  fun n => if n = k then v else f n

/-- A world where every player was constructed as `new Player()` and every
ensemble is empty. -/
def emptyWorld : World :=
  { player := fun _ => mkPlayer none, entries := fun _ => [] }

/-- `player.let('name', v)` — compares the current value with `===`; if they
differ, assigns and emits one `propertychange` event (old value, new value);
otherwise does nothing and emits nothing. -/
def letName (w : World) (p : Nat) (v : Option String) : World × List PCEvent :=
  if (w.player p).pname = v then (w, [])
  else ({ w with player := updF w.player p { w.player p with pname := v } },
    [⟨p, "name", pvName (w.player p).pname, pvName v⟩])

/-- `player.let('ensemble', v)` — same discipline as `letName`. -/
def letEns (w : World) (p : Nat) (v : Option Nat) : World × List PCEvent :=
  if (w.player p).pens = v then (w, [])
  else ({ w with player := updF w.player p { w.player p with pens := v } },
    [⟨p, "ensemble", pvEns (w.player p).pens, pvEns v⟩])

/-- `Ensemble.add(name, player)` from `src/unnamed/part_003`: if the name is
already a key of `players`, throw a duplicate-name `Error` (modelled as
returning the untouched world, no events and return value `none`); otherwise
`players.set(name, player)` (appending, since the key is new), then
`player.let('name', name)`, then `player.let('ensemble', this)`, and return
`this` (the ensemble id). -/
def addP (w : World) (e : Nat) (n : String) (p : Nat) :
    World × List PCEvent × Option Nat :=
  if (w.entries e).any (fun kv => kv.1 == n) then (w, [], none)
  else
    let w1 : World := { w with entries := updF w.entries e (w.entries e ++ [(n, p)]) }
    let r2 := letName w1 p (some n)
    let r3 := letEns r2.1 p (some e)
    (r3.1, r2.2 ++ r3.2, some e)

/-- `Ensemble.remove(name)`: look the name up; if absent return `false`;
otherwise `player.let('ensemble', undefined)`, `player.let('name',
undefined)`, and `players.delete(name)` (which returns `true`). -/
def removeP (w : World) (e : Nat) (n : String) :
    World × List PCEvent × Bool :=
  match (w.entries e).find? (fun kv => kv.1 == n) with
  | none => (w, [], false)
  | some kv =>
      let r1 := letEns w kv.2 none
      let r2 := letName r1.1 kv.2 none
      ({ r2.1 with entries := updF r2.1.entries e ((r2.1.entries e).eraseP (fun x => x.1 == n)) },
        r1.2 ++ r2.2, true)

/-- JavaScript truthiness of the `name` argument of `rotate`: `undefined`
and the empty string are falsy. -/
def jsFalsyName : Option String → Bool
  | none => true
  | some s => s == ""

/-- The second half of `Ensemble.rotate`, after the falsy-name substitution:
`const got = this.get(name); if (got) { this.remove(name); this.add(name,
got); } return got;`. -/
def rotateKey (w : World) (e : Nat) (name1 : Option String) :
    World × List PCEvent × Option Nat :=
  let got : Option Nat :=
    match name1 with
    | none => none
    | some n => ((w.entries e).find? (fun kv => kv.1 == n)).map (fun kv => kv.2)
  match name1, got with
  | some n, some p =>
      let r1 := removeP w e n
      let r2 := addP r1.1 e n p
      (r2.1, r1.2.1 ++ r2.2.1, some p)
  | _, _ => (w, [], none)

/-- `Ensemble.rotate(name)`: if `name` is falsy (omitted, `undefined` or the
empty string) and the map is non-empty, replace it by the *`name` field of
the first player in insertion order* (which may be `undefined` or differ from
that entry's key); then `get` the player under the resulting key and, if
found, `remove` it and `add` it back under the same key; return the player
found (or `undefined`). -/
def rotateP (w : World) (e : Nat) (name : Option String) :
    World × List PCEvent × Option Nat :=
  rotateKey w e
    (if jsFalsyName name ∧ 0 < (w.entries e).length then
      match (w.entries e).head? with
      | some kv => (w.player kv.2).pname
      | none => name
    else name)

/-- Stable insertion keeping `x` before the first element `y` with
`cmp x y ≤ 0`. -/
def insertCmp {α : Type} (cmp : α → α → Int) (x : α) : List α → List α
  | [] => [x]
  | y :: ys => if cmp x y ≤ 0 then x :: y :: ys else y :: insertCmp cmp x ys

/-- `Array.prototype.sort(comparator)` for a consistent comparator: the
stable order in which `a` precedes `b` whenever `cmp a b ≤ 0` respects the
comparator (the ECMAScript-specified result; for inconsistent comparators the
engine result is unspecified and this model fixes one permutation). -/
def jsSort {α : Type} (cmp : α → α → Int) : List α → List α
  | [] => []
  | x :: xs => insertCmp cmp x (jsSort cmp xs)

/-- The actual start index of `Array.prototype.splice`: clamped to the
array, counted from the end when negative. -/
def jsSpliceStart (len : Nat) (start : Int) : Nat :=
  (if start < 0 then max ((len : Int) + start) 0 else min start (len : Int)).toNat

/-- `arr.splice(start)` (no delete count): removes the elements from the
actual start index to the end, returning `(remaining, removed)`. -/
def jsSpliceFrom {α : Type} (arr : List α) (start : Int) : List α × List α :=
  (arr.take (jsSpliceStart arr.length start), arr.drop (jsSpliceStart arr.length start))

/-- `Ensemble.sort(entryComparator, limit)`: sort the `[name, player]`
entries, `splice(limit)` off the tail when `limit !== undefined`, rebuild the
map from the remaining entries, and return the spliced-off tail.  Player
fields (`name`/`ensemble` back-pointers) are not touched. -/
def sortE (w : World) (e : Nat) (cmp : (String × Nat) → (String × Nat) → Int)
    (limit : Option Int) : World × List (String × Nat) :=
  let sorted := jsSort cmp (w.entries e)
  let kt : List (String × Nat) × List (String × Nat) :=
    match limit with
    | none => (sorted, [])
    | some l => jsSpliceFrom sorted l
  ({ w with entries := updF w.entries e kt.1 }, kt.2)

/-! ## `play`/`pause` across the Player subclasses

For the lifecycle claims the relevant state of a player is its own flags plus
(for an `Ensemble`) its children, so players form trees:

* `base` — a plain `Player` (`playing` only); `play()`/`pause()` assign
  `this.playing` directly (no `let`, hence no notification) and `return this`;
* `ens` — an `Ensemble`: `play()` returns (`undefined`) when already
  playing, otherwise plays every child that is not `playing` and has a `play`
  function (every Player does), then `this.let('playing', true)` — one
  self-emitted notification — and falls off the end (`undefined`);
* `cue` — a `Cue` (`playing`, `attached`): `play()` returns (`undefined`)
  when attached, otherwise registers the bound listener and sets
  `attached = true`; it never touches `playing` and never calls
  `super.play()`;
* `ost` — an `Ostinato` (`playing`, `stopped`): `play()` clears the stop
  flag, invokes the repeating chain, calls `super.play()` and returns `this`.

Results are `(new state, self-emitted 'playing' notifications, returned
self?)`: the `Nat` counts `propertychange` events whose emitter is the player
the method was invoked on (children's own notifications have the child as
emitter), and the `Bool` is whether the JS method returns `this` (`false` =
returns `undefined`). -/

/-- A player tree: one constructor per core subclass. -/
inductive PTree where
  | base (playing : Bool)
  | ens (playing : Bool) (children : List (String × PTree))
  | cue (playing : Bool) (attached : Bool)
  | ost (playing : Bool) (stopped : Bool)

/-- The `playing` field of any player. -/
def PTree.playingOf : PTree → Bool
  | .base b => b
  | .ens b _ => b
  | .cue b _ => b
  | .ost b _ => b

/-- The `attached` field of a `Cue` (`true` elsewhere, unused). -/
def PTree.attachedOf : PTree → Bool
  | .cue _ a => a
  | _ => true

/-- Is this player a `Cue`? -/
def PTree.isCue : PTree → Bool
  | .cue _ _ => true
  | _ => false

/-- Does this player's `play`/`pause` return `this` (base `Player` and
`Ostinato` do; `Ensemble.play/pause` and `Cue.play/pause` end without a
return value)? -/
def PTree.retSelf : PTree → Bool
  | .base _ => true
  | .ens _ _ => false
  | .cue _ _ => false
  | .ost _ _ => true

mutual

/-- `play()` of each subclass (see the section comment for the mapping). -/
def PTree.play : PTree → PTree × Nat × Bool
  | .base _ => (.base true, 0, true)
  | .ens b cs => if b then (.ens b cs, 0, false) else (.ens true (playKids cs), 1, false)
  | .cue b a => if a then (.cue b a, 0, false) else (.cue b true, 0, false)
  | .ost _ _ => (.ost true false, 0, true)

/-- `for (const player of this.players.values()) if (typeof player.play ===
'function' && !player.playing) player.play();` -/
def playKids : List (String × PTree) → List (String × PTree)
  | [] => []
  | (n, c) :: rest => (n, if c.playingOf then c else (PTree.play c).1) :: playKids rest

end

mutual

/-- `pause()` of each subclass, symmetric to `play`. -/
def PTree.pause : PTree → PTree × Nat × Bool
  | .base _ => (.base false, 0, true)
  | .ens b cs => if b then (.ens false (pauseKids cs), 1, false) else (.ens b cs, 0, false)
  | .cue b a => if a then (.cue b false, 0, false) else (.cue b a, 0, false)
  | .ost _ _ => (.ost false true, 0, true)

/-- `for (const player of this.players.values()) if (typeof player.pause ===
'function' && player.playing) player.pause();` -/
def pauseKids : List (String × PTree) → List (String × PTree)
  | [] => []
  | (n, c) :: rest => (n, if c.playingOf then (PTree.pause c).1 else c) :: pauseKids rest

end

/-! ## `Cue.promise` (src/src/main/core/Cue.js)

The executor of the returned promise attaches a transient `handler`,
optionally schedules a timeout, and settles exactly once.  Its behaviour is a
pure function of the sequence of emitter firings that occur while the handler
is attached and before the timeout instant: each firing is abstracted to the
outcome of `this._rawListener(...args)` — a result value or a thrown error.
Values are `Option Int` with `none` for `undefined`; the default predicate is
`result => undefined !== result`.  The run is recorded as the ordered trace
of the externally observable actions the executor performs. -/

/-- Observable actions of the `promise` executor: detaching the transient
handler, cancelling a scheduled timeout (`clearTimeout` on a live timer),
and the three ways of settling. -/
inductive PAct where
  | detach
  | clearT
  | resolveV (v : Option Int)
  | rejectE (e : String)
  | rejectTO (eventName : String)
deriving Repr, DecidableEq

/-- The default predicate `result => undefined !== result`. -/
def jsDefaultPred : Option Int → Bool := fun r => r.isSome

/-- The handler/timeout loop: on a firing whose listener throws, detach,
cancel the timeout when one is scheduled, reject with the error; on a result
accepted by the predicate, detach, cancel, resolve; on a rejected result just
keep waiting.  When the firings before the timeout instant are exhausted: if
a timeout was scheduled it fires — detach, then reject with the Timeout
error naming the configured event; otherwise the promise simply stays
pending (empty trace). -/
def cuePromiseRun (eventName : String) (scheduled : Bool) (pred : Option Int → Bool) :
    List (Except String (Option Int)) → List PAct
  | [] => if scheduled then [.detach, .rejectTO eventName] else []
  | f :: rest =>
      match f with
      | .error err => [.detach] ++ (if scheduled then [.clearT] else []) ++ [.rejectE err]
      | .ok v =>
          if pred v then [.detach] ++ (if scheduled then [.clearT] else []) ++ [.resolveV v]
          else cuePromiseRun eventName scheduled pred rest

/-- `cue.promise(timeoutMillis, predicate)`: the timeout is scheduled iff
`timeoutMillis > 0`. -/
def cuePromise (eventName : String) (timeoutMillis : Int) (pred : Option Int → Bool)
    (fires : List (Except String (Option Int))) : List PAct :=
  cuePromiseRun eventName (decide (0 < timeoutMillis)) pred fires

/-- Is an action a settlement (resolution or rejection)? -/
def PAct.isSettle : PAct → Bool
  | .resolveV _ => true
  | .rejectE _ => true
  | .rejectTO _ => true
  | _ => false

/-- Is an action the timeout rejection? -/
def PAct.isRejTO : PAct → Bool
  | .rejectTO _ => true
  | _ => false

/-- `true` iff the trace contains no settlement, or a `detach` strictly
before its first settlement. -/
def detachBeforeSettle : List PAct → Bool
  | [] => true
  | .detach :: _ => true
  | a :: rest => if a.isSettle then false else detachBeforeSettle rest

/-! ## Constructor argument checks (Cue, Ostinato)

`typeof`-style checks over a small universe of JavaScript values. -/

/-- A JavaScript value as classified by `typeof` in the constructor guards. -/
inductive JsV where
  | vstr (s : String)
  | vnum (n : Int)
  | vfn (id : Nat)
  | vundef
  | vnull
  | vobj
deriving Repr, DecidableEq

/-- `typeof v === 'string'`. -/
def JsV.isStr : JsV → Bool
  | .vstr _ => true
  | _ => false

/-- `typeof v === 'function'`. -/
def JsV.isFn : JsV → Bool
  | .vfn _ => true
  | _ => false

/-- The checks of `new Cue(emitter, event, listener, opts)`: throws
`TypeError("event must be a string")` when `typeof event !== 'string'`, then
`TypeError("listener must be a function")` when `typeof listener !==
'function'`; otherwise the constructor only assigns fields and binds the
listener, and completes. -/
def cueCtorErr (event listener : JsV) : Option String :=
  if ¬ event.isStr then some "event must be a string"
  else if ¬ listener.isFn then some "listener must be a function"
  else none

/-- The check of `new Ostinato(refrain, ...)`: throws
`TypeError` when `typeof refrain !== 'function'`. -/
def ostinatoCtorErr (refrain : JsV) : Option String :=
  if ¬ refrain.isFn then some "Ostinato requires a function as the refrain."
  else none

/-! ## Operation sequences (for the membership invariant) -/

/-- One mutation step of the claim C4 scope: an `add` or a `remove` on some
ensemble. -/
inductive MOp where
  | madd (e : Nat) (n : String) (p : Nat)
  | mrem (e : Nat) (n : String)

/-- Apply one operation to the world (events and return values dropped). -/
def runOp (w : World) : MOp → World
  | .madd e n p => (addP w e n p).1
  | .mrem e n => (removeP w e n).1

/-- Apply a sequence of operations in order. -/
def runOps (w : World) : List MOp → World
  | [] => w
  | o :: os => runOps (runOp w o) os

/-- The name/ensemble pairing invariant: for every player id, the `name` and
`ensemble` fields are both set or both unset. -/
def BothOrNeither (w : World) : Prop :=
  ∀ i : Nat, (w.player i).pname.isSome ↔ (w.player i).pens.isSome

/-! ## Concrete scenarios used by individual claims -/

/-- Lexicographic order on character lists by code point (the order JS `<`
uses on strings). -/
def charListLt : List Char → List Char → Bool
  | [], [] => false
  | [], _ :: _ => true
  | _ :: _, [] => false
  | c :: cs, d :: ds =>
      if c.toNat < d.toNat then true
      else if d.toNat < c.toNat then false
      else charListLt cs ds

/-- JS `a < b` on strings. -/
def strLtB (a b : String) : Bool := charListLt a.data b.data

/-- The lexicographic `[name, player]` comparator of the spec's sort
example: `(a, b) => a[0] < b[0] ? -1 : a[0] > b[0] ? 1 : 0`. -/
def lexNameCmp : (String × Nat) → (String × Nat) → Int :=
  fun a b => if strLtB a.1 b.1 then -1 else if strLtB b.1 a.1 then 1 else 0

/-- An ensemble (id 0) holding three players added as z, x, y — the state
reached by `add('z', …)`, `add('x', …)`, `add('y', …)` on a fresh
ensemble. -/
def w7 : World :=
  { player := fun i =>
      if i = 1 then { pname := some "z", pens := some 0, playing := false }
      else if i = 2 then { pname := some "x", pens := some 0, playing := false }
      else if i = 3 then { pname := some "y", pens := some 0, playing := false }
      else mkPlayer none,
    entries := fun e => if e = 0 then [("z", 1), ("x", 2), ("y", 3)] else [] }

/-- An ensemble (id 9) with entries `[("a", player 0), ("", player 1)]` in
insertion order, back-pointers in sync — reached by `add('a', …)` then
`add('', …)`. -/
def w8 : World :=
  { player := fun i =>
      if i = 0 then { pname := some "a", pens := some 9, playing := false }
      else if i = 1 then { pname := some "", pens := some 9, playing := false }
      else mkPlayer none,
    entries := fun e => if e = 9 then [("a", 0), ("", 1)] else [] }

/-- An ensemble (id 9) with entries `[a, b]` in insertion order,
back-pointers in sync — the `rotate()` example of the spec. -/
def w8b : World :=
  { player := fun i =>
      if i = 0 then { pname := some "a", pens := some 9, playing := false }
      else if i = 1 then { pname := some "b", pens := some 9, playing := false }
      else mkPlayer none,
    entries := fun e => if e = 9 then [("a", 0), ("b", 1)] else [] }

/-- A fresh ensemble 0 after `add('a', player 5)`. -/
def wC2a : World := (addP emptyWorld 0 "a" 5).1

/-- `wC2a` after `sort(cmp, 0)`: the map is emptied but player 5 keeps its
`name`/`ensemble` back-pointers (the documented behaviour of `sort`). -/
def wC2b : World := (sortE wC2a 0 lexNameCmp (some 0)).1

/-! ## Theorems

First a stock of small lemmas about the property-mutation helper and the
membership operations, shared by several claims. -/

theorem letName_entries (w : World) (p : Nat) (v : Option String) :
    (letName w p v).1.entries = w.entries := by
  unfold letName; split <;> rfl

theorem letEns_entries (w : World) (p : Nat) (v : Option Nat) :
    (letEns w p v).1.entries = w.entries := by
  unfold letEns; split <;> rfl

theorem letName_pname (w : World) (p : Nat) (v : Option String) :
    ((letName w p v).1.player p).pname = v := by
  unfold letName; split
  · next h => exact h
  · simp [updF]

theorem letName_pens (w : World) (p : Nat) (v : Option String) :
    ((letName w p v).1.player p).pens = (w.player p).pens := by
  unfold letName; split
  · rfl
  · simp [updF]

theorem letName_other (w : World) (p : Nat) (v : Option String) (q : Nat) (hq : q ≠ p) :
    (letName w p v).1.player q = w.player q := by
  unfold letName; split
  · rfl
  · simp [updF, hq]

theorem letEns_pens (w : World) (p : Nat) (v : Option Nat) :
    ((letEns w p v).1.player p).pens = v := by
  unfold letEns; split
  · next h => exact h
  · simp [updF]

theorem letEns_pname (w : World) (p : Nat) (v : Option Nat) :
    ((letEns w p v).1.player p).pname = (w.player p).pname := by
  unfold letEns; split
  · rfl
  · simp [updF]

theorem letEns_other (w : World) (p : Nat) (v : Option Nat) (q : Nat) (hq : q ≠ p) :
    (letEns w p v).1.player q = w.player q := by
  unfold letEns; split
  · rfl
  · simp [updF, hq]

theorem addP_dup (w : World) (e : Nat) (n : String) (p : Nat)
    (h : (w.entries e).any (fun kv => kv.1 == n) = true) :
    addP w e n p = (w, [], none) := by
  unfold addP; simp [h]

theorem addP_entries (w : World) (e : Nat) (n : String) (p : Nat)
    (h : (w.entries e).any (fun kv => kv.1 == n) = false) :
    (addP w e n p).1.entries e = w.entries e ++ [(n, p)] := by
  unfold addP
  simp [h, letEns_entries, letName_entries, updF]

theorem addP_entries_other (w : World) (e : Nat) (n : String) (p : Nat) (e2 : Nat)
    (h : (w.entries e).any (fun kv => kv.1 == n) = false) (h2 : e2 ≠ e) :
    (addP w e n p).1.entries e2 = w.entries e2 := by
  unfold addP
  simp [h, letEns_entries, letName_entries, updF, h2]

theorem addP_pname (w : World) (e : Nat) (n : String) (p : Nat)
    (h : (w.entries e).any (fun kv => kv.1 == n) = false) :
    ((addP w e n p).1.player p).pname = some n := by
  unfold addP
  simp [h, letEns_pname, letName_pname]

theorem addP_pens (w : World) (e : Nat) (n : String) (p : Nat)
    (h : (w.entries e).any (fun kv => kv.1 == n) = false) :
    ((addP w e n p).1.player p).pens = some e := by
  unfold addP
  simp [h, letEns_pens]

theorem addP_player_other (w : World) (e : Nat) (n : String) (p : Nat) (q : Nat)
    (h : (w.entries e).any (fun kv => kv.1 == n) = false) (hq : q ≠ p) :
    (addP w e n p).1.player q = w.player q := by
  unfold addP
  simp [h, letEns_other _ _ _ _ hq, letName_other _ _ _ _ hq]

theorem addP_ret (w : World) (e : Nat) (n : String) (p : Nat)
    (h : (w.entries e).any (fun kv => kv.1 == n) = false) :
    (addP w e n p).2.2 = some e := by
  unfold addP
  simp [h]

theorem addP_events (w : World) (e : Nat) (n : String) (p : Nat)
    (h : (w.entries e).any (fun kv => kv.1 == n) = false) :
    (addP w e n p).2.1 =
      (if (w.player p).pname = some n then []
        else [⟨p, "name", pvName (w.player p).pname, PVal.str n⟩]) ++
      (if (w.player p).pens = some e then []
        else [⟨p, "ensemble", pvEns (w.player p).pens, PVal.ensRef e⟩]) := by
  unfold addP
  have hw1 : ∀ q : Nat,
      ({ w with entries := updF w.entries e (w.entries e ++ [(n, p)]) } : World).player q
        = w.player q := fun _ => rfl
  by_cases h1 : (w.player p).pname = some n <;>
    by_cases h2 : (w.player p).pens = some e <;>
      simp [h, letName, letEns, h1, h2, updF, hw1, pvName, pvEns]

theorem removeP_notfound (w : World) (e : Nat) (n : String)
    (hf : (w.entries e).find? (fun kv => kv.1 == n) = none) :
    removeP w e n = (w, [], false) := by
  unfold removeP; rw [hf]

theorem removeP_entries (w : World) (e : Nat) (n : String) (kv : String × Nat)
    (hf : (w.entries e).find? (fun kv => kv.1 == n) = some kv) :
    (removeP w e n).1.entries e = (w.entries e).eraseP (fun x => x.1 == n) := by
  unfold removeP; rw [hf]
  simp [letEns_entries, letName_entries, updF]

theorem removeP_entries_other (w : World) (e : Nat) (n : String) (kv : String × Nat) (e2 : Nat)
    (hf : (w.entries e).find? (fun kv => kv.1 == n) = some kv) (h2 : e2 ≠ e) :
    (removeP w e n).1.entries e2 = w.entries e2 := by
  unfold removeP; rw [hf]
  simp [letEns_entries, letName_entries, updF, h2]

theorem removeP_pname (w : World) (e : Nat) (n : String) (kv : String × Nat)
    (hf : (w.entries e).find? (fun kv => kv.1 == n) = some kv) :
    ((removeP w e n).1.player kv.2).pname = none := by
  unfold removeP; rw [hf]
  simp [letName_pname]

theorem removeP_pens (w : World) (e : Nat) (n : String) (kv : String × Nat)
    (hf : (w.entries e).find? (fun kv => kv.1 == n) = some kv) :
    ((removeP w e n).1.player kv.2).pens = none := by
  unfold removeP; rw [hf]
  simp [letName_pens, letEns_pens]

theorem removeP_player_other (w : World) (e : Nat) (n : String) (kv : String × Nat) (q : Nat)
    (hf : (w.entries e).find? (fun kv => kv.1 == n) = some kv) (hq : q ≠ kv.2) :
    (removeP w e n).1.player q = w.player q := by
  unfold removeP; rw [hf]
  simp [letEns_other _ _ _ _ hq, letName_other _ _ _ _ hq]

theorem removeP_ret (w : World) (e : Nat) (n : String) (kv : String × Nat)
    (hf : (w.entries e).find? (fun kv => kv.1 == n) = some kv) :
    (removeP w e n).2.2 = true := by
  unfold removeP; rw [hf]

theorem addP_preserves (w : World) (e : Nat) (n : String) (p : Nat)
    (h : BothOrNeither w) : BothOrNeither (addP w e n p).1 := by
  cases hd : (w.entries e).any (fun kv => kv.1 == n) with
  | true => rw [addP_dup w e n p hd]; exact h
  | false =>
      intro i
      by_cases hip : i = p
      · subst hip
        simp [addP_pname w e n i hd, addP_pens w e n i hd]
      · rw [addP_player_other w e n p i hd hip]
        exact h i

theorem removeP_preserves (w : World) (e : Nat) (n : String)
    (h : BothOrNeither w) : BothOrNeither (removeP w e n).1 := by
  cases hf : (w.entries e).find? (fun kv => kv.1 == n) with
  | none => rw [removeP_notfound w e n hf]; exact h
  | some kv =>
      intro i
      by_cases hik : i = kv.2
      · subst hik
        simp [removeP_pname w e n kv hf, removeP_pens w e n kv hf]
      · rw [removeP_player_other w e n kv i hf hik]
        exact h i

theorem runOps_preserves :
    ∀ (ops : List MOp) (w : World), BothOrNeither w → BothOrNeither (runOps w ops)
  | [], _, h => h
  | o :: os, w, h => by
      have h1 : BothOrNeither (runOp w o) := by
        cases o with
        | madd e n p => exact addP_preserves w e n p h
        | mrem e n => exact removeP_preserves w e n h
      exact runOps_preserves os _ h1

/-- C4, counterexample: the claim says an unassigned Player has neither
`name` nor `ensemble` and that the two fields are assigned exclusively by
`add`/`remove`; but the `Player` constructor takes an optional `name`
argument (`this.name = name`), so `new Player("a")` has `name` set while
`ensemble` is `undefined`. -/
theorem C4_named_constructor_counterexample :
    (mkPlayer (some "a")).pname.isSome = true ∧
    (mkPlayer (some "a")).pens.isSome = false :=
  ⟨rfl, rfl⟩

/-- C4 (amended): for Players constructed without a name argument (so in any
world satisfying the pairing invariant, e.g. the fresh world), every sequence
of `Ensemble.add`/`Ensemble.remove` operations preserves the invariant that
`name` and `ensemble` are both set or both unset; only construction with an
explicit name breaks it. -/
theorem C4_membership_invariant :
    BothOrNeither emptyWorld ∧
    (∀ (w : World) (ops : List MOp), BothOrNeither w → BothOrNeither (runOps w ops)) := by
  constructor
  · intro i; simp [emptyWorld, mkPlayer]
  · intro w ops h
    exact runOps_preserves ops w h

/-- Witness for `C4_membership_invariant` at a concrete world and operation
sequence. -/
theorem C4_membership_invariant_w :
    BothOrNeither (runOps emptyWorld [MOp.madd 0 "a" 1, MOp.mrem 0 "a", MOp.madd 0 "b" 2]) :=
  C4_membership_invariant.2 emptyWorld _ (fun i => by simp [emptyWorld, mkPlayer])

/-- C6, counterexample: the claim says construction with an empty-string
event name fails, but the constructor only checks `typeof event !==
'string'`, so `new Cue(emitter, "", listener)` with a callable listener
succeeds. -/
theorem C6_empty_event_name_counterexample :
    cueCtorErr (JsV.vstr "") (JsV.vfn 0) = none ∧
    (JsV.vstr "").isStr = true ∧ (JsV.vfn 0).isFn = true :=
  ⟨rfl, rfl, rfl⟩

/-- C6 (amended): constructing a Cue raises a TypeError-class error if and
only if the event name is not a string (empty strings are accepted) or the
listener is not callable; a valid construction never raises. -/
theorem C6_cue_ctor_spec :
    ∀ event listener : JsV,
      (cueCtorErr event listener).isSome = true ↔
        (event.isStr = false ∨ listener.isFn = false) := by
  intro e l
  cases e <;> cases l <;> simp [cueCtorErr, JsV.isStr, JsV.isFn]

/-- C9: constructing an Ostinato raises a TypeError-class error if and only
if the supplied refrain is not callable (`typeof refrain !== "function"`);
with a callable refrain this error is never raised. -/
theorem C9_ostinato_ctor_spec :
    ∀ refrain : JsV, (ostinatoCtorErr refrain).isSome = true ↔ refrain.isFn = false := by
  intro r
  cases r <;> simp [ostinatoCtorErr, JsV.isFn]

/-- C10: `Ensemble.add` checks for a duplicate name before any mutation, so
when it throws the duplicate-name error the world is untouched: the
ensemble's map, the existing entry, and the offered player's `name`/
`ensemble` fields are unchanged, no property-change event is emitted, and
nothing is returned. -/
theorem C10_add_atomic_on_duplicate :
    ∀ (w : World) (e : Nat) (n : String) (p : Nat),
      (w.entries e).any (fun kv => kv.1 == n) = true →
      addP w e n p = (w, [], none) ∧
      (addP w e n p).1.entries e = w.entries e ∧
      (addP w e n p).1.player p = w.player p ∧
      (addP w e n p).2.1 = [] ∧
      (addP w e n p).2.2 = none := by
  intro w e n p h
  have h0 := addP_dup w e n p h
  exact ⟨h0, by rw [h0], by rw [h0], by rw [h0], by rw [h0]⟩

/-- Witness for `C10_add_atomic_on_duplicate`: offering a second player under
the existing name `"a"` of `w8b` changes nothing. -/
theorem C10_add_atomic_on_duplicate_w :
    (w8b.entries 9).any (fun kv => kv.1 == "a") = true ∧
    addP w8b 9 "a" 7 = (w8b, [], none) :=
  ⟨by decide, (C10_add_atomic_on_duplicate w8b 9 "a" 7 (by decide)).1⟩

/-- C2, counterexample: the claim says that for *every* player `p` and fresh
name `n`, `add(n, p)` fires a property-change event.  But `sort` with a limit
discards entries without clearing their back-pointers, so a discarded player
re-added under its retained name already holds the target values of both
fields and `let` fires nothing: in `wC2b` the map of ensemble 0 is empty
(the name `"a"` is free) yet `add("a", player 5)` succeeds, returns the
ensemble, and emits no property-change event at all. -/
theorem C2_add_without_notification :
    wC2b.entries 0 = [] ∧
    (wC2b.player 5).pname = some "a" ∧
    (wC2b.player 5).pens = some 0 ∧
    (addP wC2b 0 "a" 5).2.2 = some 0 ∧
    (addP wC2b 0 "a" 5).2.1 = [] := by
  decide

/-- C2 (amended): for every ensemble `e`, name `n` not present in `e` and
player `p`: `add(n, p)` succeeds, appends the entry, sets `p.name = n` and
`p.ensemble = e` via the property-mutation helper — which emits one
property-change event for each of the two fields whose value actually
changes (and none for a field already holding the target value) — and
returns `e`; if `n` is already present, `add` throws the duplicate-name
error (no return value).  `remove(n)` clears the removed player's `name` and
`ensemble` back to `undefined`, deletes the entry, and returns whether an
entry was removed. -/
theorem C2_add_remove_spec :
    (∀ (w : World) (e : Nat) (n : String) (p : Nat),
      (w.entries e).any (fun kv => kv.1 == n) = false →
        (addP w e n p).2.2 = some e ∧
        (addP w e n p).1.entries e = w.entries e ++ [(n, p)] ∧
        ((addP w e n p).1.player p).pname = some n ∧
        ((addP w e n p).1.player p).pens = some e ∧
        (addP w e n p).2.1 =
          (if (w.player p).pname = some n then []
            else [⟨p, "name", pvName (w.player p).pname, PVal.str n⟩]) ++
          (if (w.player p).pens = some e then []
            else [⟨p, "ensemble", pvEns (w.player p).pens, PVal.ensRef e⟩])) ∧
    (∀ (w : World) (e : Nat) (n : String) (p : Nat),
      (w.entries e).any (fun kv => kv.1 == n) = true →
        (addP w e n p).2.2 = none) ∧
    (∀ (w : World) (e : Nat) (n : String) (kv : String × Nat),
      (w.entries e).find? (fun x => x.1 == n) = some kv →
        (removeP w e n).2.2 = true ∧
        ((removeP w e n).1.player kv.2).pname = none ∧
        ((removeP w e n).1.player kv.2).pens = none ∧
        (removeP w e n).1.entries e = (w.entries e).eraseP (fun x => x.1 == n)) ∧
    (∀ (w : World) (e : Nat) (n : String),
      (w.entries e).find? (fun x => x.1 == n) = none →
        removeP w e n = (w, [], false)) := by
  refine ⟨?_, ?_, ?_, ?_⟩
  · intro w e n p h
    exact ⟨addP_ret w e n p h, addP_entries w e n p h, addP_pname w e n p h,
      addP_pens w e n p h, addP_events w e n p h⟩
  · intro w e n p h
    rw [addP_dup w e n p h]
  · intro w e n kv hf
    exact ⟨removeP_ret w e n kv hf, removeP_pname w e n kv hf,
      removeP_pens w e n kv hf, removeP_entries w e n kv hf⟩
  · intro w e n hf
    exact removeP_notfound w e n hf

/-- Witness for `C2_add_remove_spec`: a fresh add on the empty world and the
matching remove. -/
theorem C2_add_remove_spec_w :
    (addP emptyWorld 0 "a" 1).2.2 = some 0 ∧
    ((addP emptyWorld 0 "a" 1).1.player 1).pname = some "a" ∧
    (removeP (addP emptyWorld 0 "a" 1).1 0 "a").2.2 = true := by
  have h1 := C2_add_remove_spec.1 emptyWorld 0 "a" 1 (by decide)
  have h2 := C2_add_remove_spec.2.2.1 (addP emptyWorld 0 "a" 1).1 0 "a" ("a", 1) (by decide)
  exact ⟨h1.1, h1.2.2.1, h2.1⟩

theorem jsSpliceStart_natCast (len : Nat) (l : Nat) :
    jsSpliceStart len (l : Int) = min l len := by
  unfold jsSpliceStart
  split <;> omega

theorem take_min_self {α : Type} (xs : List α) (n : Nat) :
    xs.take (min n xs.length) = xs.take n := by
  rcases le_total n xs.length with h | h
  · rw [min_eq_left h]
  · rw [min_eq_right h, List.take_length, List.take_of_length_le h]

theorem drop_min_self {α : Type} (xs : List α) (n : Nat) :
    xs.drop (min n xs.length) = xs.drop n := by
  rcases le_total n xs.length with h | h
  · rw [min_eq_left h]
  · rw [min_eq_right h, List.drop_length, List.drop_eq_nil_of_le h]

theorem jsSpliceFrom_natCast {α : Type} (arr : List α) (l : Nat) :
    jsSpliceFrom arr (l : Int) = (arr.take l, arr.drop l) := by
  unfold jsSpliceFrom
  rw [jsSpliceStart_natCast, take_min_self, drop_min_self]

/-- C7: for every ensemble, comparator, and retain-count `limit`,
`sort(entryComparator, limit)` keeps exactly the first `limit` entries of the
post-sort order, in that order, and returns exactly the discarded tail as an
ordered list of `[name, player]` pairs; no player's `name`/`ensemble` fields
are touched, and other ensembles are untouched.  On the spec's example —
entries named z, x, y, the lexicographic comparator, `limit = 2` — the
remaining order is `[x, y]` and exactly the entry keyed `z` is returned,
its player still pointing at this ensemble. -/
theorem C7_sort_spec :
    (∀ (w : World) (e : Nat) (cmp : (String × Nat) → (String × Nat) → Int) (l : Nat),
      (sortE w e cmp (some (l : Int))).1.entries e = (jsSort cmp (w.entries e)).take l ∧
      (sortE w e cmp (some (l : Int))).2 = (jsSort cmp (w.entries e)).drop l ∧
      (sortE w e cmp (some (l : Int))).1.player = w.player ∧
      (∀ e2, e2 ≠ e → (sortE w e cmp (some (l : Int))).1.entries e2 = w.entries e2)) ∧
    (sortE w7 0 lexNameCmp (some 2)).1.entries 0 = [("x", 2), ("y", 3)] ∧
    (sortE w7 0 lexNameCmp (some 2)).2 = [("z", 1)] ∧
    ((sortE w7 0 lexNameCmp (some 2)).1.player 1).pname = some "z" ∧
    ((sortE w7 0 lexNameCmp (some 2)).1.player 1).pens = some 0 := by
  refine ⟨?_, by decide, by decide, by decide, by decide⟩
  intro w e cmp l
  refine ⟨?_, ?_, rfl, ?_⟩
  · show (updF w.entries e (jsSpliceFrom (jsSort cmp (w.entries e)) (l : Int)).1) e
      = (jsSort cmp (w.entries e)).take l
    rw [jsSpliceFrom_natCast]
    simp [updF]
  · show (jsSpliceFrom (jsSort cmp (w.entries e)) (l : Int)).2
      = (jsSort cmp (w.entries e)).drop l
    rw [jsSpliceFrom_natCast]
  · intro e2 h2
    show (updF w.entries e (jsSpliceFrom (jsSort cmp (w.entries e)) (l : Int)).1) e2
      = w.entries e2
    simp [updF, h2]

/-- Witness for `C7_sort_spec` at the concrete z/x/y world, also checking
that an unrelated ensemble id is untouched. -/
theorem C7_sort_spec_w :
    (sortE w7 0 lexNameCmp (some ((2 : Nat) : Int))).1.entries 5 = w7.entries 5 ∧
    (sortE w7 0 lexNameCmp (some ((2 : Nat) : Int))).1.entries 0 =
      (jsSort lexNameCmp (w7.entries 0)).take 2 := by
  have h := C7_sort_spec.1 w7 0 lexNameCmp 2
  exact ⟨h.2.2.2 5 (by decide), h.1⟩

theorem eraseP_no_key (n : String) :
    ∀ (l : List (String × Nat)), (l.map Prod.fst).Nodup →
      ((l.eraseP (fun kv => kv.1 == n)).any (fun kv => kv.1 == n)) = false
  | [], _ => rfl
  | hd :: tl, hnd => by
      rw [List.map_cons, List.nodup_cons] at hnd
      by_cases hk : hd.1 = n
      · rw [List.eraseP_cons_of_pos (by simp [hk])]
        rw [List.any_eq_false]
        intro x hx
        simp only [beq_iff_eq]
        intro hxn
        exact hnd.1 (by rw [hk, ← hxn]; exact List.mem_map_of_mem Prod.fst hx)
      · rw [List.eraseP_cons_of_neg (by simp [hk]), List.any_cons]
        simp [hk, eraseP_no_key n tl hnd.2]

theorem rotateP_truthy (w : World) (e : Nat) (n : String)
    (hn : jsFalsyName (some n) = false) :
    rotateP w e (some n) = rotateKey w e (some n) := by
  unfold rotateP
  rw [if_neg (by simp [hn])]

/-- C8, counterexample: the claim says `rotate(name)` moves *the entry at
`name`* to the end and returns its player.  In `w8` an entry keyed `""`
(player 1) exists, yet `rotate("")` treats the empty string as an omitted
name (`if (!name …)`), targets the first player's `name` field `"a"`
instead, rotates `("a", player 0)` and returns player 0, leaving the `""`
entry where it was. -/
theorem C8_rotate_empty_name_counterexample :
    (w8.entries 9).find? (fun kv => kv.1 == "") = some ("", 1) ∧
    (rotateP w8 9 (some "")).2.2 = some 0 ∧
    (rotateP w8 9 (some "")).2.2 ≠ some 1 ∧
    (rotateP w8 9 (some "")).1.entries 9 = [("", 1), ("a", 0)] := by
  decide

/-- C8 (amended): `rotate(name)` with a *truthy* (non-empty) name moves the
entry at `name` (when present, under unique keys) to the end of the
iteration order by removing and re-adding it under the same key, preserving
the player's identity and restoring its back-pointers, and returns that
player; with a truthy name that is absent it returns `undefined` and leaves
the world unchanged.  When `name` is omitted (or otherwise falsy) the code
targets the key stored in the first player's own `name` field — on an
ensemble `[a, b]` whose `name` fields match their keys, `rotate()` yields
order `[b, a]` and returns `a`. -/
theorem C8_rotate_spec :
    (∀ (w : World) (e : Nat) (n : String) (kv : String × Nat),
      jsFalsyName (some n) = false →
      ((w.entries e).map Prod.fst).Nodup →
      (w.entries e).find? (fun x => x.1 == n) = some kv →
        (rotateP w e (some n)).2.2 = some kv.2 ∧
        (rotateP w e (some n)).1.entries e =
          ((w.entries e).eraseP (fun x => x.1 == n)) ++ [(n, kv.2)] ∧
        ((rotateP w e (some n)).1.player kv.2).pname = some n ∧
        ((rotateP w e (some n)).1.player kv.2).pens = some e) ∧
    (∀ (w : World) (e : Nat) (n : String),
      jsFalsyName (some n) = false →
      (w.entries e).find? (fun x => x.1 == n) = none →
        rotateP w e (some n) = (w, [], none)) ∧
    (rotateP w8b 9 none).2.2 = some 0 ∧
    (rotateP w8b 9 none).1.entries 9 = [("b", 1), ("a", 0)] ∧
    ((rotateP w8b 9 none).1.player 0).pname = some "a" ∧
    ((rotateP w8b 9 none).1.player 0).pens = some 9 := by
  refine ⟨?_, ?_, by decide, by decide, by decide, by decide⟩
  · intro w e n kv hn hnd hf
    have hrot : rotateP w e (some n) =
        ((addP (removeP w e n).1 e n kv.2).1,
          (removeP w e n).2.1 ++ (addP (removeP w e n).1 e n kv.2).2.1,
          some kv.2) := by
      rw [rotateP_truthy w e n hn]
      unfold rotateKey
      simp only [hf, Option.map_some']
    have hremE : (removeP w e n).1.entries e = (w.entries e).eraseP (fun x => x.1 == n) :=
      removeP_entries w e n kv hf
    have hguard : ((removeP w e n).1.entries e).any (fun x => x.1 == n) = false := by
      rw [hremE]
      exact eraseP_no_key n (w.entries e) hnd
    rw [hrot]
    refine ⟨rfl, ?_, ?_, ?_⟩
    · show (addP (removeP w e n).1 e n kv.2).1.entries e = _
      rw [addP_entries _ e n kv.2 hguard, hremE]
    · show ((addP (removeP w e n).1 e n kv.2).1.player kv.2).pname = some n
      exact addP_pname _ e n kv.2 hguard
    · show ((addP (removeP w e n).1 e n kv.2).1.player kv.2).pens = some e
      exact addP_pens _ e n kv.2 hguard
  · intro w e n hn hf
    rw [rotateP_truthy w e n hn]
    unfold rotateKey
    simp only [hf, Option.map_none']

/-- Witness for `C8_rotate_spec`: rotating the entry `"b"` of `w8b`. -/
theorem C8_rotate_spec_w :
    (rotateP w8b 9 (some "b")).2.2 = some 1 ∧
    (rotateP w8b 9 (some "b")).1.entries 9 = [("a", 0), ("b", 1)] := by
  have h := C8_rotate_spec.1 w8b 9 "b" ("b", 1) (by decide) (by decide) (by decide)
  exact ⟨h.1, by rw [h.2.1]; decide⟩

/-- C3, counterexample: the claim says calling `play()` twice on *any*
Player (including the subclass `Cue`) leaves `playing === true` and that each
call returns the player itself.  `Cue.play()` only registers the listener and
sets `attached = true`: it never touches `playing` (which stays `false`) and
ends without a return value (`undefined`). -/
theorem C3_cue_play_counterexample :
    ((((PTree.cue false false).play).1.play).1.playingOf = false) ∧
    (((PTree.cue false false).play).2.2 = false) ∧
    ((((PTree.cue false false).play).1.play).1.attachedOf = true) := by
  simp [PTree.play, PTree.playingOf, PTree.attachedOf]

/-- C3 (amended): for every Player, calling `play()` twice in a row produces
at most one observable state-change notification (a `propertychange` event
emitted by the player itself) across the two calls, and the second call does
not change the state; a base `Player`, an `Ensemble` and an `Ostinato` end
with `playing === true`, while a `Cue` ends with `attached === true` and its
`playing` flag untouched; the base `Player` and `Ostinato` return `this`
from both calls, while `Ensemble.play` and `Cue.play` return `undefined`.
All of this symmetrically for `pause()` (with `playing === false`
respectively `attached === false`). -/
theorem C3_play_pause_idempotent :
    ∀ t : PTree,
      ((t.play.1.play).1 = t.play.1 ∧
        t.play.2.1 + (t.play.1.play).2.1 ≤ 1 ∧
        (t.isCue = false → (t.play.1).playingOf = true) ∧
        (t.isCue = true → (t.play.1).attachedOf = true ∧ (t.play.1).playingOf = t.playingOf) ∧
        t.play.2.2 = t.retSelf ∧ (t.play.1.play).2.2 = t.retSelf) ∧
      ((t.pause.1.pause).1 = t.pause.1 ∧
        t.pause.2.1 + (t.pause.1.pause).2.1 ≤ 1 ∧
        (t.isCue = false → (t.pause.1).playingOf = false) ∧
        (t.isCue = true → (t.pause.1).attachedOf = false ∧ (t.pause.1).playingOf = t.playingOf) ∧
        t.pause.2.2 = t.retSelf ∧ (t.pause.1.pause).2.2 = t.retSelf) := by
  intro t
  cases t with
  | base b =>
      simp [PTree.play, PTree.pause, PTree.playingOf, PTree.attachedOf, PTree.isCue,
        PTree.retSelf]
  | ens b cs =>
      cases b <;>
        simp [PTree.play, PTree.pause, PTree.playingOf, PTree.attachedOf, PTree.isCue,
          PTree.retSelf]
  | cue b a =>
      cases a <;>
        simp [PTree.play, PTree.pause, PTree.playingOf, PTree.attachedOf, PTree.isCue,
          PTree.retSelf]
  | ost b st =>
      simp [PTree.play, PTree.pause, PTree.playingOf, PTree.attachedOf, PTree.isCue,
        PTree.retSelf]

/-- Witness for `C3_play_pause_idempotent` at a base Player and a Cue. -/
theorem C3_play_pause_idempotent_w :
    ((PTree.base false).play.1).playingOf = true ∧
    ((PTree.cue false false).play.1).attachedOf = true ∧
    ((PTree.cue false false).play.1).playingOf = (PTree.cue false false).playingOf := by
  have h1 := C3_play_pause_idempotent (PTree.base false)
  have h2 := C3_play_pause_idempotent (PTree.cue false false)
  exact ⟨h1.1.2.2.1 rfl, (h2.1.2.2.2.1 rfl).1, (h2.1.2.2.2.1 rfl).2⟩

theorem cuePromiseRun_cases (ev : String) (sch : Bool) (pred : Option Int → Bool) :
    ∀ fires : List (Except String (Option Int)),
      cuePromiseRun ev sch pred fires = (if sch then [PAct.detach, PAct.rejectTO ev] else []) ∨
      (∃ v, cuePromiseRun ev sch pred fires =
        [PAct.detach] ++ (if sch then [PAct.clearT] else []) ++ [PAct.resolveV v]) ∨
      (∃ err, cuePromiseRun ev sch pred fires =
        [PAct.detach] ++ (if sch then [PAct.clearT] else []) ++ [PAct.rejectE err])
  | [] => Or.inl rfl
  | f :: rest => by
      cases f with
      | error err =>
          right; right
          exact ⟨err, by simp [cuePromiseRun]⟩
      | ok v =>
          by_cases hp : pred v = true
          · right; left
            exact ⟨v, by simp [cuePromiseRun, hp]⟩
          · have hp' : pred v = false := by
              cases hpv : pred v
              · rfl
              · exact absurd hpv hp
            have hrec := cuePromiseRun_cases ev sch pred rest
            simpa [cuePromiseRun, hp'] using hrec

theorem cuePromiseRun_no_qualifying (ev : String) (sch : Bool) (pred : Option Int → Bool) :
    ∀ fires : List (Except String (Option Int)),
      fires.all (fun f => match f with | .ok v => !pred v | .error _ => false) = true →
      cuePromiseRun ev sch pred fires = (if sch then [PAct.detach, PAct.rejectTO ev] else [])
  | [], _ => rfl
  | f :: rest, h => by
      rw [List.all_cons, Bool.and_eq_true] at h
      cases f with
      | error err => simp at h
      | ok v =>
          have hp : pred v = false := by
            have h1 : (!pred v) = true := h.1
            cases hpv : pred v
            · rfl
            · rw [hpv] at h1; exact absurd h1 (by decide)
          have hstep : cuePromiseRun ev sch pred (Except.ok v :: rest)
              = cuePromiseRun ev sch pred rest := by
            simp [cuePromiseRun, hp]
          rw [hstep]
          exact cuePromiseRun_no_qualifying ev sch pred rest h.2

theorem beq_detach_clearT : (PAct.detach == PAct.clearT) = false := rfl

theorem beq_clearT_clearT : (PAct.clearT == PAct.clearT) = true := rfl

theorem beq_resolve_clearT (v : Option Int) : (PAct.resolveV v == PAct.clearT) = false := rfl

theorem beq_rejectE_clearT (e : String) : (PAct.rejectE e == PAct.clearT) = false := rfl

theorem beq_rejectTO_clearT (ev : String) : (PAct.rejectTO ev == PAct.clearT) = false := rfl

theorem cuePromiseRun_contract (ev : String) (sch : Bool) (pred : Option Int → Bool)
    (fires : List (Except String (Option Int))) :
    (sch = false → (cuePromiseRun ev sch pred fires).all (fun a => !a.isRejTO) = true) ∧
    (cuePromiseRun ev sch pred fires).countP (fun a => a == PAct.clearT) ≤ 1 ∧
    (cuePromiseRun ev sch pred fires).countP (fun a => a.isSettle) ≤ 1 ∧
    (sch = true → (cuePromiseRun ev sch pred fires).countP (fun a => a.isSettle) = 1) ∧
    ((cuePromiseRun ev sch pred fires).countP (fun a => a == PAct.clearT) = 1 →
      (cuePromiseRun ev sch pred fires).all (fun a => !a.isRejTO) = true ∧
      (cuePromiseRun ev sch pred fires).countP (fun a => a.isSettle) = 1) ∧
    detachBeforeSettle (cuePromiseRun ev sch pred fires) = true := by
  rcases cuePromiseRun_cases ev sch pred fires with h | ⟨v, h⟩ | ⟨err, h⟩ <;>
    rw [h] <;> cases sch <;>
      simp [List.countP_cons, PAct.isSettle, PAct.isRejTO, detachBeforeSettle,
        beq_detach_clearT, beq_clearT_clearT, beq_resolve_clearT, beq_rejectE_clearT,
        beq_rejectTO_clearT]

/-- C5: for every `timeoutMillis`, predicate, event name and firing sequence,
the `promise` executor (i) with a positive `timeoutMillis` and no qualifying
firing within it, detaches the transient handler and rejects with the
Timeout error naming the configured event — the detach happening before the
rejection; (ii) with `timeoutMillis = 0` never produces a timeout rejection
(the timeout is disabled); (iii) cancels the scheduled timeout at most once,
settles at most once (exactly once whenever the timeout is armed), and when
it does cancel the timeout it is because of a resolution or a
listener-transform rejection, never together with a timeout rejection; and
(iv) in every settling exit path the handler is detached before the
settlement. -/
theorem C5_promise_timeout_contract :
    ∀ (tm : Int) (pred : Option Int → Bool) (fires : List (Except String (Option Int)))
      (ev : String),
      (0 < tm →
        fires.all (fun f => match f with | .ok v => !pred v | .error _ => false) = true →
        cuePromise ev tm pred fires = [PAct.detach, PAct.rejectTO ev]) ∧
      (tm = 0 → (cuePromise ev tm pred fires).all (fun a => !a.isRejTO) = true) ∧
      (cuePromise ev tm pred fires).countP (fun a => a == PAct.clearT) ≤ 1 ∧
      (cuePromise ev tm pred fires).countP (fun a => a.isSettle) ≤ 1 ∧
      (0 < tm → (cuePromise ev tm pred fires).countP (fun a => a.isSettle) = 1) ∧
      ((cuePromise ev tm pred fires).countP (fun a => a == PAct.clearT) = 1 →
        (cuePromise ev tm pred fires).all (fun a => !a.isRejTO) = true ∧
        (cuePromise ev tm pred fires).countP (fun a => a.isSettle) = 1) ∧
      detachBeforeSettle (cuePromise ev tm pred fires) = true := by
  intro tm pred fires ev
  have hdef : cuePromise ev tm pred fires
      = cuePromiseRun ev (decide (0 < tm)) pred fires := rfl
  have hc := cuePromiseRun_contract ev (decide (0 < tm)) pred fires
  refine ⟨?_, ?_, ?_, ?_, ?_, ?_, ?_⟩
  · intro htm hall
    rw [hdef, cuePromiseRun_no_qualifying ev (decide (0 < tm)) pred fires hall,
      if_pos (decide_eq_true htm)]
  · intro h0
    rw [hdef]
    refine hc.1 ?_
    subst h0
    rfl
  · rw [hdef]; exact hc.2.1
  · rw [hdef]; exact hc.2.2.1
  · intro htm
    rw [hdef]
    exact hc.2.2.2.1 (decide_eq_true htm)
  · rw [hdef]; exact hc.2.2.2.2.1
  · rw [hdef]; exact hc.2.2.2.2.2

/-- Witness for `C5_promise_timeout_contract`: a 5 ms timeout, the default
predicate, and a single non-qualifying firing (`undefined` result). -/
theorem C5_promise_timeout_contract_w :
    cuePromise "msg" 5 jsDefaultPred [Except.ok none] = [PAct.detach, PAct.rejectTO "msg"] ∧
    (cuePromise "msg" 5 jsDefaultPred [Except.ok none]).countP (fun a => a.isSettle) = 1 := by
  have h := C5_promise_timeout_contract 5 jsDefaultPred [Except.ok none] "msg"
  exact ⟨h.1 (by decide) (by decide), h.2.2.2.2.1 (by decide)⟩

/-- C1: the claim says that emitting from a Player nested two Ensembles deep
produces a `source` chain of length 3, traced from the event a listener
receives via `origin`/`source`, with `propagationPath` listing the emitters
innermost to outermost.  The code delivers to every listener along the chain
an event whose `source` is `undefined` (chain length 1, `propagationPath`
just the local emitter), because each ensemble's `emit` re-wraps the bubbled
event as a plain argument of a fresh source-less event; even counting events
buried inside argument lists the longest chain anywhere in the emission is 2,
never 3. -/
theorem C1_emit_chain_truncated :
    ((emitAll 0 [1, 2] "e" []).map (fun d => d.2.chainLen)) = [1, 1, 1] ∧
    ((emitAll 0 [1, 2] "e" []).map (fun d => d.2.propPath)) = [[0], [1], [2]] ∧
    ((emitAll 0 [1, 2] "e" []).map (fun d => d.2.originOf)) =
      ((emitAll 0 [1, 2] "e" []).map (fun d => d.2)) ∧
    ((emitAll 0 [1, 2] "e" []).map (fun d => d.2.deepMaxChain)) = [1, 2, 2] ∧
    ((emitAll 0 [1, 2] "e" []).all (fun d => d.2.chainLen != 3)) = true := by
  refine ⟨rfl, rfl, rfl, ?_, rfl⟩
  simp [emitAll, JsVal.deepMaxChain, deepMaxChainList, JsVal.chainLen]
